import Mathlib

/-!
Verification development for the `oidcmsg.key_jar` module: a shallow
embedding of the `KeyJar` class (`src/src/oidcmsg/key_jar.py`) and proofs
about its key-selection, mutation and equality logic.

Conventions of the embedding:
* The Python `dict` `issuer_keys` is an ordered association list
  `List (String × List KeyBundle)`; `lookupOwner` is dict indexing and
  `setOwner` is dict assignment (update in place, preserving order, or
  append a fresh entry).
* Python `None`/absent string values (`kid`, `use`) are the empty string,
  matching the truthiness tests (`if kid:`, `if not key.use`) in the source.
* Exceptions are values of `PyError`; a method that can raise returns
  `Option PyError × KeyJar` (the store component is the state of `self`
  after the call, unchanged when the exception fires before any mutation)
  or `Except PyError α × KeyJar` for methods returning a value.
* The `KeyBundle` collaborator lives in `oidcmsg.key_bundle`, which is not
  part of the sources; the interface the store consumes (`keys()`,
  `get(key_type)`, `remove_outdated(after, when)`, `len`) is modelled from
  the spec, see the doc comments below.
-/

/-- A single key as consumed read-only by the selection engine: key type
(`RSA`, `EC`, `oct`, ...), declared use (`sig`/`enc`/`""` = unset), key
identifier (`""` = absent), curve name (EC only), inactive-since timestamp
(`0` = active) and the key material `k` (an opaque string standing for the
serialized material; only compared for equality, never inspected). -/
structure Key where
  kty : String
  use : String
  kid : String
  crv : String
  inactive_since : Nat
  k : String
deriving DecidableEq, Repr

/-- Modelled from the spec: the external Key Bundle collaborator
(`oidcmsg.key_bundle.KeyBundle`, not in the sources) is "an opaque,
owner-agnostic container of individual keys"; only the interface consumed
by the store is represented: the list of keys it holds. -/
structure KeyBundle where
  keys : List Key
deriving DecidableEq, Repr

/-- Modelled from the spec: the bundle interface `get(key_type)`,
"enumerate keys of a given key-type". -/
def KeyBundle.get (kb : KeyBundle) (kty : String) : List Key :=
  kb.keys.filter (fun key => key.kty == kty)

/-- Modelled from the spec: the bundle interface
`remove_outdated(retention_seconds, now)`, "mark-and-purge keys inactive
longer than a retention window": a key is dropped when it is inactive and
`now` is past `inactive_since + retention`, kept otherwise. -/
def KeyBundle.remove_outdated (kb : KeyBundle) (after : Nat) (when : Nat) :
    KeyBundle :=
  ⟨kb.keys.filter (fun key =>
    key.inactive_since == 0 || decide (when ≤ key.inactive_since + after))⟩

/-- Python exception classes raised (or, for `configurationError`, merely
named by the spec's taxonomy) around the `KeyJar` code. -/
inductive PyError where
  | keyError (msg : String)
  | valueError (msg : String)
  | typeError (msg : String)
  | configurationError (msg : String)
deriving DecidableEq, Repr

/-- The Python class name of an exception value. -/
def PyError.className : PyError → String
  | .keyError _ => "KeyError"
  | .valueError _ => "ValueError"
  | .typeError _ => "TypeError"
  | .configurationError _ => "ConfigurationError"

/-- The `KeyJar` state: the `issuer_keys` dict (owner → ordered bundle
sequence) and the `remove_after` retention window. The TLS fields
(`ca_certs`, `verify_ssl`) only parameterize the external bundle fetch and
are omitted. -/
structure KeyJar where
  issuer_keys : List (String × List KeyBundle)
  remove_after : Nat
deriving DecidableEq, Repr

/-- Dict indexing `self.issuer_keys[owner]` (as an `Option`). -/
def lookupOwner (jar : KeyJar) (owner : String) : Option (List KeyBundle) :=
  (jar.issuer_keys.find? (fun p => p.1 == owner)).map (fun p => p.2)

/-- Dict assignment `d[k] = v`: overwrite in place when the key exists,
otherwise append a fresh entry (Python dicts preserve insertion order). -/
def setOwner (l : List (String × List KeyBundle)) (k : String)
    (v : List KeyBundle) : List (String × List KeyBundle) :=
  if l.any (fun p => p.1 == k) then
    l.map (fun p => if p.1 == k then (k, v) else p)
  else l ++ [(k, v)]

/-- The `try: self.issuer_keys[owner].append(kb) except KeyError:
self.issuer_keys[owner] = [kb]` pattern used throughout the source. -/
def KeyJar.addBundle (jar : KeyJar) (owner : String) (kb : KeyBundle) :
    KeyJar :=
  match lookupOwner jar owner with
  | some old => { jar with issuer_keys := setOwner jar.issuer_keys owner (old ++ [kb]) }
  | none => { jar with issuer_keys := setOwner jar.issuer_keys owner [kb] }

/-- `KeyJar.owners()` — the dict keys, in order. -/
def ownersList (jar : KeyJar) : List String :=
  jar.issuer_keys.map (fun p => p.1)

/-- `KeyJar.get_issuer_keys(issuer)`: all keys of all of `issuer`'s
bundles; dict indexing raises `KeyError` on an unknown issuer. -/
def KeyJar.get_issuer_keys (jar : KeyJar) (issuer : String) :
    Except PyError (List Key) :=
  match lookupOwner jar issuer with
  | some kbs => .ok (kbs.foldr (fun kb acc => kb.keys ++ acc) [])
  | none => .error (.keyError issuer)

/-- Total variant of `get_issuer_keys` used inside `__eq__`, where both
stores are only ever indexed at owners both are known to contain (the
owner sets have already compared equal), so the `[]` default is dead. -/
def keysOf (jar : KeyJar) (issuer : String) : List Key :=
  match lookupOwner jar issuer with
  | some kbs => kbs.foldr (fun kb acc => kb.keys ++ acc) []
  | none => []

/-- The store invariant claimed by the spec: no owner maps to an empty
bundle sequence. -/
def KeyJar.inv (jar : KeyJar) : Bool :=
  jar.issuer_keys.all (fun p => !p.2.isEmpty)

/- ===================== mutation operations ===================== -/

/-- `KeyJar.add_url(owner, url, **kwargs)`. The bundle construction from
the url (including the localhost TLS-verification exemption) is the
external collaborator's job; `kc` stands for the bundle it produced.
On an empty url the source raises `KeyError("No jwks_uri")` before any
mutation. -/
def KeyJar.add_url (jar : KeyJar) (owner : String) (url : String)
    (kc : KeyBundle) : Option PyError × KeyJar :=
  if url == "" then (some (.keyError "No jwks_uri"), jar)
  else (none, jar.addBundle owner kc)

/-- The symmetric key object `{"kty": "oct", "k": b64e(as_bytes(key)),
"use": use}` built by `add_symmetric`; the base64url encoding of the
secret is an injective external function and is left as the raw secret
string (no claim inspects the encoded material). -/
def octKey (key : String) (use : String) : Key :=
  ⟨"oct", use, "", "", 0, key⟩

/-- `KeyJar.add_symmetric(owner, key, usage=None)`: ensure the owner entry
exists (creating it as `[]`), then append one single-key bundle per usage
(or one use-less bundle when `usage is None`). -/
def KeyJar.add_symmetric (jar : KeyJar) (owner : String) (key : String)
    (usage : Option (List String)) : KeyJar :=
  let jar1 := if (lookupOwner jar owner).isNone then
      { jar with issuer_keys := setOwner jar.issuer_keys owner [] }
    else jar
  match usage with
  | none => jar1.addBundle owner ⟨[octKey key ""]⟩
  | some uses =>
    uses.foldl (fun j use => j.addBundle owner ⟨[octKey key use]⟩) jar1

/-- `KeyJar.add_kb(owner, kb)`. -/
def KeyJar.add_kb (jar : KeyJar) (owner : String) (kb : KeyBundle) : KeyJar :=
  jar.addBundle owner kb

/-- An argument element of `KeyJar.__setitem__`: either a genuine
`KeyBundle` instance or any other Python object (represented by its
`str()` rendering, which appears in the error message). -/
inductive PyVal where
  | bundle (kb : KeyBundle)
  | other (s : String)
deriving DecidableEq, Repr

/-- The bundle payload of a `PyVal`, when it is one. -/
def PyVal.toBundle : PyVal → Option KeyBundle
  | .bundle kb => some kb
  | .other _ => none

/-- The rendering of the first element of the list that is not a
`KeyBundle` instance — the object the `__setitem__` loop raises on. -/
def firstNonBundle : List PyVal → Option String
  | [] => none
  | .bundle _ :: rest => firstNonBundle rest
  | .other s :: _ => some s

/-- `KeyJar.__setitem__(owner, val)`: validate every element is a
`KeyBundle` (raising `ValueError('{} not an KeyBundle instance')` on the
first that is not, before any mutation), then overwrite the owner's
sequence wholesale. A non-list argument is first wrapped in a singleton
list by the source; the embedding takes the (possibly wrapped) list. -/
def KeyJar.setitem (jar : KeyJar) (owner : String) (val : List PyVal) :
    Option PyError × KeyJar :=
  match firstNonBundle val with
  | some s => (some (.valueError (s ++ " not an KeyBundle instance")), jar)
  | none =>
    (none, { jar with
      issuer_keys := setOwner jar.issuer_keys owner (val.filterMap PyVal.toBundle) })

/-- `KeyJar.import_jwks(jwks, issuer)`: the input dict either lacks the
`keys` field (`none` — raises `ValueError('Not a proper JWKS')`) or
carries a literal key list, wrapped in one new bundle and appended. -/
def KeyJar.import_jwks (jar : KeyJar) (jwks : Option (List Key))
    (issuer : String) : Option PyError × KeyJar :=
  match jwks with
  | none => (some (.valueError "Not a proper JWKS"), jar)
  | some ks => (none, jar.addBundle issuer ⟨ks⟩)

/-- `KeyJar.remove_outdated(when)`: for each owner, purge each bundle,
keep only bundles with keys left, and delete the owner entirely when no
bundle survives. -/
def KeyJar.remove_outdated (jar : KeyJar) (when : Nat) : KeyJar :=
  { jar with issuer_keys := jar.issuer_keys.filterMap (fun p =>
      let kbl := (p.2.map (fun kb => kb.remove_outdated jar.remove_after when)).filter
          (fun kb => !kb.keys.isEmpty)
      if kbl.isEmpty then none else some (p.1, kbl)) }

/- ===================== equality ===================== -/

/-- `KeyJar.__eq__`: same owner sets, and per owner the same key count
and a non-empty key intersection. -/
def KeyJar.beq (a b : KeyJar) : Bool :=
  ((ownersList a).all (fun o => (ownersList b).contains o) &&
   (ownersList b).all (fun o => (ownersList a).contains o)) &&
  (ownersList a).all (fun iss =>
    let sk := keysOf a iss
    let ok := keysOf b iss
    (sk.length == ok.length) && sk.any (fun key => ok.contains key))

/-- The equality semantics exactly as the spec words it: same set of
owners, and for every owner the same number of keys and at least one key
in common. -/
def KeyJarEqSpec (a b : KeyJar) : Prop :=
  (∀ o, o ∈ ownersList a ↔ o ∈ ownersList b) ∧
  ∀ iss ∈ ownersList a,
    (keysOf a iss).length = (keysOf b iss).length ∧
    ∃ key ∈ keysOf a iss, key ∈ keysOf b iss

/- ===================== the selection engine ===================== -/

/-- The inner key loop of `KeyJar.get` over one bundle's keys: skip
inactive keys unless `key_use == "sig"`, keep keys whose declared use is
unset or matches the use-class, and under a requested `kid` stop at the
first exact match (`break`). -/
def scanKeys (bkeys : List Key) (key_use : String) (use : String)
    (kid : String) : List Key :=
  match bkeys with
  | [] => []
  | key :: rest =>
    if key.inactive_since != 0 && key_use != "sig" then
      scanKeys rest key_use use kid
    else if key.use == "" || use == key.use then
      if kid != "" then
        if key.kid == kid then [key]
        else scanKeys rest key_use use kid
      else key :: scanKeys rest key_use use kid
    else scanKeys rest key_use use kid

/-- `owner.endswith("/")`: since `"/"` is a single character, this is a
test on the last character (stated over `String.data` because the
built-in `String.endsWith` does not reduce in the kernel). -/
def endsWithSlash (s : String) : Bool :=
  s.data.getLast? == some '/'

/-- `owner[:-1]`: drop the last character. -/
def dropLastChar (s : String) : String :=
  ⟨s.data.dropLast⟩

/-- The owner string with a trailing slash toggled. -/
def toggleSlash (owner : String) : String :=
  if endsWithSlash owner then dropLastChar owner else owner ++ "/"

/-- The owner-resolution prelude of `KeyJar.get` (lines 175–197 of the
source): direct dict lookup, then — for a non-empty owner only — a retry
with the trailing slash toggled. -/
def resolveOwner (jar : KeyJar) (owner : String) : Option (List KeyBundle) :=
  if owner != "" then
    match lookupOwner jar owner with
    | some kbs => some kbs
    | none =>
      if endsWithSlash owner then lookupOwner jar (dropLastChar owner)
      else lookupOwner jar (owner ++ "/")
  else lookupOwner jar owner

/-- `KeyJar.get(key_use, key_type, owner, kid, **kwargs)`: use-class
normalization, owner resolution, per-bundle scan, EC curve filter, and
the own-symmetric-key merge (which indexes `issuer_keys['']` unguarded
and can raise `KeyError('')`). The second component is the state of
`self` at method exit. -/
def KeyJar.get (jar : KeyJar) (key_use : String) (key_type : String)
    (owner : String) (kid : String) (alg : Option String) :
    Except PyError (List Key) × KeyJar :=
  let use := if key_use == "dec" || key_use == "enc" then "enc" else "sig"
  match resolveOwner jar owner with
  | none => (.ok [], jar)
  | some kj =>
    let lst := kj.foldr (fun bundle acc =>
      scanKeys (if key_type != "" then bundle.get key_type else bundle.keys)
        key_use use kid ++ acc) []
    let lst2 := if key_type == "EC" then
        match alg with
        | some a => lst.filter (fun key => ("P-" ++ a.drop 2) == key.crv)
        | none => lst
      else lst
    if use == "enc" && key_type == "oct" && owner != "" then
      match lookupOwner jar "" with
      | none => (.error (.keyError ""), jar)
      | some kbs =>
        (.ok (lst2 ++ kbs.foldr (fun kb acc =>
          (kb.get key_type).filter (fun key =>
            key.inactive_since == 0 && (key.use == "" || key.use == use)) ++ acc) []), jar)
    else (.ok lst2, jar)

/-- `KeyJar.get_signing_key`. -/
def KeyJar.get_signing_key (jar : KeyJar) (key_type : String)
    (owner : String) (kid : String) (alg : Option String) :
    Except PyError (List Key) × KeyJar :=
  jar.get "sig" key_type owner kid alg

/-- `KeyJar.get_verify_key`. -/
def KeyJar.get_verify_key (jar : KeyJar) (key_type : String)
    (owner : String) (kid : String) (alg : Option String) :
    Except PyError (List Key) × KeyJar :=
  jar.get "ver" key_type owner kid alg

/-- `KeyJar.get_encrypt_key`. -/
def KeyJar.get_encrypt_key (jar : KeyJar) (key_type : String)
    (owner : String) (kid : String) (alg : Option String) :
    Except PyError (List Key) × KeyJar :=
  jar.get "enc" key_type owner kid alg

/-- `KeyJar.get_decrypt_key`. -/
def KeyJar.get_decrypt_key (jar : KeyJar) (key_type : String)
    (owner : String) (kid : String) (alg : Option String) :
    Except PyError (List Key) × KeyJar :=
  jar.get "dec" key_type owner kid alg

/-- The dedup-append loop of `_add_key`'s kid branch:
`for _key in kl: if _key not in keys: keys.append(_key)`. -/
def mergeUnique (keys : List Key) (kl : List Key) : List Key :=
  kl.foldl (fun acc key => if acc.contains key then acc else acc ++ [key]) keys

/-- `KeyJar._add_key(keys, owner, use, key_type, kid, no_kid_issuer,
allow_missing_kid)`: the fallback-tier resolver. `no_kid_issuer` is the
per-owner allow-list dict (an entry value `[]` models both Python `[]`
and `None`, the falsy "admit all" cases). In the kid branch a `KeyError`
from `get` propagates; in the no-kid branch it is caught and the
candidate set returned unchanged. -/
def KeyJar.add_key (jar : KeyJar) (keys : List Key) (owner : String)
    (use : String) (key_type : String) (kid : String)
    (no_kid_issuer : List (String × List String))
    (allow_missing_kid : Bool) : Except PyError (List Key) :=
  if (lookupOwner jar owner).isNone then .ok keys
  else if kid != "" then
    match (jar.get use key_type owner kid none).1 with
    | .error e => .error e
    | .ok kl => .ok (mergeUnique keys kl)
  else
    match (jar.get use key_type owner "" none).1 with
    | .error _ => .ok keys
    | .ok kl =>
      match kl with
      | [] => .ok keys
      | [key] => .ok (if keys.contains key then keys else keys ++ [key])
      | _ :: _ :: _ =>
        if allow_missing_kid then .ok (keys ++ kl)
        else if !no_kid_issuer.isEmpty then
          match no_kid_issuer.find? (fun p => p.1 == owner) with
          | none => .ok keys
          | some entry =>
            if !entry.2.isEmpty then
              .ok (keys ++ kl.filter (fun key => entry.2.contains key.kid))
            else .ok (keys ++ kl)
        else .ok keys

/- ===================== helper lemmas ===================== -/

deriving instance DecidableEq for Except

theorem filter_self_idem {α : Type} (p : α → Bool) (l : List α) :
    (l.filter p).filter p = l.filter p := by
  induction l with
  | nil => rfl
  | cons x xs ih =>
    by_cases h : p x = true
    · simp [List.filter_cons, h, ih]
    · simp [List.filter_cons, h, ih]

theorem KeyBundle.remove_outdated_idem (kb : KeyBundle) (after when : Nat) :
    (kb.remove_outdated after when).remove_outdated after when =
      kb.remove_outdated after when := by
  unfold KeyBundle.remove_outdated
  exact congrArg KeyBundle.mk (filter_self_idem _ _)

theorem filterMap_fixed {α : Type} (f : α → Option α) (l : List α)
    (h : ∀ x ∈ l, f x = some x) : l.filterMap f = l := by
  induction l with
  | nil => rfl
  | cons x xs ih =>
    rw [List.filterMap_cons, h x (List.mem_cons_self x xs),
      ih (fun y hy => h y (List.mem_cons_of_mem x hy))]

theorem map_fixed {α : Type} (f : α → α) (l : List α)
    (h : ∀ x ∈ l, f x = x) : l.map f = l := by
  induction l with
  | nil => rfl
  | cons x xs ih =>
    rw [List.map_cons, h x (List.mem_cons_self x xs),
      ih (fun y hy => h y (List.mem_cons_of_mem x hy))]

/- ===================== Claim C9 ===================== -/

/-- Claim C9: for every store state and every combination of usage, key
type, owner, kid and algorithm arguments, `KeyJar.get` leaves the store's
owner-to-bundles mapping unchanged — every exit path of the method
returns `self` exactly as it was entered. -/
theorem C9_get_does_not_mutate (jar : KeyJar) (key_use key_type owner kid : String)
    (alg : Option String) :
    (jar.get key_use key_type owner kid alg).2 = jar := by
  unfold KeyJar.get
  cases resolveOwner jar owner with
  | none => rfl
  | some kj =>
    dsimp only
    repeat' split
    all_goals rfl

/- ===================== Claim C1 ===================== -/

def keyC1 : Key := ⟨"RSA", "sig", "kid1", "", 100, "m1"⟩

def jarC1 : KeyJar := ⟨[("a", [⟨[keyC1]⟩])], 3600⟩

/-- Claim C1: the spec says an inactive key is returned only for
signature-verification and never for new signing, and the source's own
comment agrees ("Skip inactive keys unless for signature verification"),
but the implementation tests the raw `key_use` argument against the
literal `"sig"`: `get_signing_key` (new signing, `key_use="sig"`) returns
a key with `inactive_since = 100`, while `get_verify_key`
(signature-verification, `key_use="ver"`) omits the very same key. -/
theorem C1_inactive_key_policy_bug :
    (jarC1.get_signing_key "RSA" "a" "" none).1 = .ok [keyC1] ∧
    (jarC1.get_verify_key "RSA" "a" "" none).1 = .ok [] := ⟨rfl, rfl⟩

/- ===================== Claim C7 ===================== -/

def jarC7 : KeyJar := ⟨[("a", [⟨[⟨"RSA", "sig", "1", "", 0, "m7"⟩]⟩])], 3600⟩

/-- Claim C7 counterexample: `__setitem__` on a list containing a
non-bundle raises `ValueError`, not a `TypeError`-class error as the
claim states (the store is indeed left unchanged). -/
theorem C7_counterexample :
    ((jarC7.setitem "a" [.other "x"]).1.map PyError.className = some "ValueError") ∧
    ¬((jarC7.setitem "a" [.other "x"]).1.map PyError.className = some "TypeError") ∧
    (jarC7.setitem "a" [.other "x"]).2 = jarC7 := by decide

theorem firstNonBundle_append_bundles (pre : List KeyBundle) (s : String)
    (rest : List PyVal) :
    firstNonBundle (pre.map PyVal.bundle ++ PyVal.other s :: rest) = some s := by
  induction pre with
  | nil => rfl
  | cons kb pres ih => simpa [firstNonBundle] using ih

/-- Claim C7 amended: for every owner and every value passed to the
replace operation, if any element of the value is not a valid key bundle
the operation fails with a `ValueError` (message naming the offending
element) and the store — in particular the owner's previous bundle
sequence — is left unchanged. -/
theorem C7_amended_setitem_valueerror (jar : KeyJar) (owner : String)
    (pre : List KeyBundle) (s : String) (rest : List PyVal) :
    jar.setitem owner (pre.map PyVal.bundle ++ PyVal.other s :: rest) =
      (some (.valueError (s ++ " not an KeyBundle instance")), jar) := by
  unfold KeyJar.setitem
  rw [firstNonBundle_append_bundles]

/- ===================== Claim C8 ===================== -/

def jarC8 : KeyJar := ⟨[("a", [⟨[⟨"RSA", "sig", "1", "", 0, "m8"⟩]⟩])], 3600⟩

/-- Claim C8 counterexample: `add_url` with an empty url raises
`KeyError("No jwks_uri")`, not a `ConfigurationError` as the claim states
(it does leave the store unchanged). -/
theorem C8_counterexample :
    ((jarC8.add_url "o" "" ⟨[]⟩).1.map PyError.className = some "KeyError") ∧
    ¬((jarC8.add_url "o" "" ⟨[]⟩).1.map PyError.className = some "ConfigurationError") ∧
    (jarC8.add_url "o" "" ⟨[]⟩).2 = jarC8 := by decide

/-- Claim C8 amended: for every store, owner and fetched bundle, calling
`add_url` with an empty url fails with `KeyError("No jwks_uri")` and
leaves the store unchanged. -/
theorem C8_amended_empty_url_keyerror (jar : KeyJar) (owner : String)
    (kc : KeyBundle) :
    jar.add_url owner "" kc = (some (.keyError "No jwks_uri"), jar) := rfl

/- ===================== Claim C3 counterexample ===================== -/

def jarC3 : KeyJar := ⟨[], 3600⟩

/-- Claim C3 counterexample: starting from the empty store (which
satisfies the invariant), `add_symmetric` with an explicitly empty usage
list creates the owner entry and then appends zero bundles, leaving the
owner mapped to an empty bundle sequence. -/
theorem C3_counterexample :
    jarC3.inv = true ∧
    (jarC3.add_symmetric "a" "secret" (some [])).inv = false := by decide

/- ===================== Claim C5 counterexample ===================== -/

def jarC5 : KeyJar :=
  ⟨[("a", [⟨[⟨"RSA", "sig", "1", "", 0, "m5a"⟩]⟩]),
    ("a/", [⟨[⟨"RSA", "sig", "2", "", 0, "m5b"⟩]⟩])], 3600⟩

/-- Claim C5 counterexample: when both the slashless and the slashed form
of an owner are present in the store with different keys, `get` does not
return the same keys for the two query forms — the fallback only fires
when the queried form is absent. -/
theorem C5_counterexample :
    ¬((jarC5.get "sig" "" "a" "" none).1 = (jarC5.get "sig" "" "a/" "" none).1) := by
  decide

/- ===================== Claim C10 counterexample ===================== -/

def jarC10 : KeyJar := ⟨[("a", [⟨[⟨"oct", "enc", "1", "", 0, "m10"⟩]⟩])], 3600⟩

/-- Claim C10 counterexample: in a store with no own-identity (`""`)
entry, `get` with an encryption use-class, key type `oct` and the
non-empty owner `"b"` (absent from the store) returns the empty list
rather than raising: the owner-resolution prelude returns before the
unguarded `issuer_keys['']` merge is reached. -/
theorem C10_counterexample :
    (jarC10.get "enc" "oct" "b" "" none).1 = .ok [] := by decide

/- ===================== Claim C6 ===================== -/

theorem entry_purge_fixed (after when : Nat) (kbl : List KeyBundle)
    (orig : List KeyBundle)
    (hk : kbl = (orig.map (fun kb => kb.remove_outdated after when)).filter
      (fun kb => !kb.keys.isEmpty)) :
    (kbl.map (fun kb => kb.remove_outdated after when)).filter
      (fun kb => !kb.keys.isEmpty) = kbl := by
  have hmap : kbl.map (fun kb => kb.remove_outdated after when) = kbl := by
    apply map_fixed
    intro kb hkb
    rw [hk] at hkb
    have h1 := List.mem_of_mem_filter hkb
    rw [List.mem_map] at h1
    obtain ⟨o, _, rfl⟩ := h1
    exact KeyBundle.remove_outdated_idem o after when
  rw [hmap]
  apply List.filter_eq_self.mpr
  intro kb hkb
  rw [hk] at hkb
  exact (List.mem_filter.mp hkb).2

/-- Claim C6: for every store state and every time value, calling
`remove_outdated` twice in succession with the same `when` argument
leaves the store in the same state as calling it once. -/
theorem C6_remove_outdated_idempotent (jar : KeyJar) (when : Nat) :
    (jar.remove_outdated when).remove_outdated when = jar.remove_outdated when := by
  unfold KeyJar.remove_outdated
  dsimp only
  congr 1
  apply filterMap_fixed
  intro x hx
  rw [List.mem_filterMap] at hx
  obtain ⟨a, _, hfa⟩ := hx
  split at hfa
  · exact absurd hfa (by simp)
  · rename_i hne
    obtain rfl := Option.some.inj hfa
    rw [entry_purge_fixed jar.remove_after when _ a.2 rfl, if_neg hne]

/- ===================== Claim C4 ===================== -/

def keyC4a : Key := ⟨"RSA", "sig", "1", "", 0, "materialA"⟩

def keyC4b : Key := ⟨"RSA", "sig", "1", "", 0, "materialB"⟩

def jarC4a : KeyJar := ⟨[("a", [⟨[keyC4a]⟩])], 3600⟩

def jarC4b : KeyJar := ⟨[("a", [⟨[keyC4b]⟩])], 3600⟩

/-- Claim C4: `KeyJar.__eq__` holds iff both stores have the same set of
owners and, for every owner, the same number of keys and at least one key
in common; in particular two stores each holding owner `"a"` with a
single key and no key material in common compare unequal. -/
theorem C4_equality_characterization :
    (∀ a b : KeyJar, KeyJar.beq a b = true ↔ KeyJarEqSpec a b) ∧
    KeyJar.beq jarC4a jarC4b = false := by
  constructor
  · intro a b
    unfold KeyJar.beq KeyJarEqSpec
    simp only [Bool.and_eq_true, List.all_eq_true, List.any_eq_true, beq_iff_eq,
      List.elem_iff]
    constructor
    · rintro ⟨⟨h1, h2⟩, h3⟩
      refine ⟨fun o => ⟨fun ho => h1 o ho, fun ho => h2 o ho⟩, fun iss hiss => ?_⟩
      obtain ⟨hl, k, hk1, hk2⟩ := h3 iss hiss
      exact ⟨hl, k, hk1, hk2⟩
    · rintro ⟨h1, h2⟩
      refine ⟨⟨fun o ho => (h1 o).mp ho, fun o ho => (h1 o).mpr ho⟩,
        fun iss hiss => ?_⟩
      obtain ⟨hl, k, hk1, hk2⟩ := h2 iss hiss
      exact ⟨hl, k, hk1, hk2⟩
  · decide

/- ===================== Claim C2 ===================== -/

/-- Claim C2: when the token carries no `kid` and the store lookup yields
more than one matching key, `_add_key` adds zero keys unless the caller
set `allow_missing_kid` (all candidates admitted) or the owner appears in
the no-kid allow-list (candidates filtered to the listed kids, or all
admitted when the owner's entry is present but empty). -/
theorem C2_no_kid_ambiguity (jar : KeyJar) (keys : List Key)
    (owner use key_type : String) (nki : List (String × List String))
    (amk : Bool) (kl : List Key)
    (hget : (jar.get use key_type owner "" none).1 = .ok kl)
    (hlen : 1 < kl.length) :
    (amk = false → nki.find? (fun p => p.1 == owner) = none →
      jar.add_key keys owner use key_type "" nki amk = .ok keys) ∧
    ((lookupOwner jar owner).isSome = true → amk = true →
      jar.add_key keys owner use key_type "" nki amk = .ok (keys ++ kl)) ∧
    (∀ entry, (lookupOwner jar owner).isSome = true → amk = false →
      nki.find? (fun p => p.1 == owner) = some entry →
      jar.add_key keys owner use key_type "" nki amk =
        .ok (keys ++ (if entry.2.isEmpty then kl
          else kl.filter (fun key => entry.2.contains key.kid)))) := by
  rcases kl with _ | ⟨k1, _ | ⟨k2, rest⟩⟩
  · simp at hlen
  · simp at hlen
  · refine ⟨?_, ?_, ?_⟩
    · intro h1 h2
      by_cases hN : (lookupOwner jar owner).isNone
      · simp [KeyJar.add_key, hN]
      · simp [KeyJar.add_key, hN, hget, h1, h2]
    · intro hS h2
      obtain ⟨v, hv⟩ := Option.isSome_iff_exists.mp hS
      simp [KeyJar.add_key, hv, hget, h2]
    · intro entry hS hamk hfind
      obtain ⟨v, hv⟩ := Option.isSome_iff_exists.mp hS
      have hne : nki.isEmpty = false := by
        cases nki with
        | nil => simp at hfind
        | cons x xs => rfl
      simp only [KeyJar.add_key, hv, hget, hamk, hne]
      by_cases he : entry.2.isEmpty <;>
        simp [hfind, he]

def keyC2a : Key := ⟨"RSA", "sig", "1", "", 0, "m2a"⟩

def keyC2b : Key := ⟨"RSA", "sig", "2", "", 0, "m2b"⟩

def jarC2 : KeyJar := ⟨[("a", [⟨[keyC2a, keyC2b]⟩])], 3600⟩

/-- Claim C2 witness: owner `"a"` holds two `sig` `RSA` keys; with no
allow-missing-kid flag and no allow-list entry nothing is added; with the
flag both are admitted; with an allow-list entry `["2"]` the candidates
are filtered to that kid. -/
theorem C2_no_kid_ambiguity_witness :
    jarC2.add_key [] "a" "sig" "RSA" "" [] false = .ok [] ∧
    jarC2.add_key [] "a" "sig" "RSA" "" [] true = .ok ([] ++ [keyC2a, keyC2b]) ∧
    jarC2.add_key [] "a" "sig" "RSA" "" [("a", ["2"])] false =
      .ok ([] ++ (if (["2"] : List String).isEmpty then [keyC2a, keyC2b]
        else [keyC2a, keyC2b].filter (fun key => ["2"].contains key.kid))) := by
  refine ⟨(C2_no_kid_ambiguity jarC2 [] "a" "sig" "RSA" [] false
      [keyC2a, keyC2b] (by decide) (by decide)).1 rfl rfl,
    (C2_no_kid_ambiguity jarC2 [] "a" "sig" "RSA" [] true
      [keyC2a, keyC2b] (by decide) (by decide)).2.1 (by decide) rfl,
    (C2_no_kid_ambiguity jarC2 [] "a" "sig" "RSA" [("a", ["2"])] false
      [keyC2a, keyC2b] (by decide) (by decide)).2.2 ("a", ["2"]) (by decide) rfl
      (by decide)⟩

/- ===================== Claim C3 amended ===================== -/

/-- The invariant on every entry except possibly the one for `k` (the
transient state right after `add_symmetric` creates the owner slot). -/
def invExcept (k : String) (l : List (String × List KeyBundle)) : Bool :=
  l.all (fun p => p.1 == k || !p.2.isEmpty)

theorem mem_setOwner {l : List (String × List KeyBundle)} {k : String}
    {v : List KeyBundle} {p : String × List KeyBundle}
    (hp : p ∈ setOwner l k v) :
    p = (k, v) ∨ (p ∈ l ∧ (p.1 == k) = false) := by
  unfold setOwner at hp
  split at hp
  · rw [List.mem_map] at hp
    obtain ⟨q, hq, rfl⟩ := hp
    by_cases hqk : (q.1 == k) = true
    · left
      rw [if_pos hqk]
    · right
      rw [if_neg hqk]
      exact ⟨hq, by simpa using hqk⟩
  · rename_i hany
    rw [List.mem_append] at hp
    rcases hp with hp | hp
    · right
      refine ⟨hp, ?_⟩
      by_contra hc
      have : (p.1 == k) = true := by simpa using hc
      exact hany (List.any_eq_true.mpr ⟨p, hp, this⟩)
    · left
      simpa using hp

theorem inv_setOwner (l : List (String × List KeyBundle)) (k : String)
    (v : List KeyBundle) (hv : v.isEmpty = false)
    (h : invExcept k l = true) :
    (setOwner l k v).all (fun p => !p.2.isEmpty) = true := by
  rw [List.all_eq_true]
  intro p hp
  rcases mem_setOwner hp with rfl | ⟨hmem, hne⟩
  · simpa using hv
  · unfold invExcept at h
    rw [List.all_eq_true] at h
    have hor := h p hmem
    rw [Bool.or_eq_true] at hor
    rcases hor with h1 | h1
    · rw [h1] at hne
      exact absurd hne (by simp)
    · exact h1

theorem invExcept_of_inv (jar : KeyJar) (k : String) (h : jar.inv = true) :
    invExcept k jar.issuer_keys = true := by
  unfold KeyJar.inv at h
  unfold invExcept
  rw [List.all_eq_true] at h ⊢
  intro p hp
  rw [Bool.or_eq_true]
  exact Or.inr (h p hp)

theorem addBundle_inv (jar : KeyJar) (owner : String) (kb : KeyBundle)
    (h : invExcept owner jar.issuer_keys = true) :
    (jar.addBundle owner kb).inv = true := by
  unfold KeyJar.addBundle
  cases hlo : lookupOwner jar owner with
  | some old => exact inv_setOwner _ _ _ (by simp) h
  | none => exact inv_setOwner _ _ _ (by simp) h

theorem inv_addBundle_of_inv (jar : KeyJar) (owner : String) (kb : KeyBundle)
    (h : jar.inv = true) : (jar.addBundle owner kb).inv = true :=
  addBundle_inv _ _ _ (invExcept_of_inv _ _ h)

theorem ensure_invExcept (jar : KeyJar) (owner : String) (h : jar.inv = true) :
    invExcept owner (if (lookupOwner jar owner).isNone then
      { jar with issuer_keys := setOwner jar.issuer_keys owner [] }
      else jar).issuer_keys = true := by
  split
  · rename_i hN
    have hfind : jar.issuer_keys.find? (fun p => p.1 == owner) = none := by
      rw [Option.isNone_iff_eq_none] at hN
      unfold lookupOwner at hN
      exact Option.map_eq_none'.mp hN
    have hany : (jar.issuer_keys.any (fun p => p.1 == owner)) = false := by
      rw [Bool.eq_false_iff]
      intro hc
      rw [List.any_eq_true] at hc
      obtain ⟨p, hp, hpk⟩ := hc
      exact absurd hpk (by simpa using List.find?_eq_none.mp hfind p hp)
    show invExcept owner (setOwner jar.issuer_keys owner []) = true
    unfold setOwner
    rw [if_neg (by simp [hany])]
    unfold invExcept
    rw [List.all_eq_true]
    intro p hp
    rw [List.mem_append] at hp
    rcases hp with hp | hp
    · unfold KeyJar.inv at h
      rw [List.all_eq_true] at h
      rw [Bool.or_eq_true]
      exact Or.inr (h p hp)
    · have : p = (owner, []) := by simpa using hp
      subst this
      simp
  · exact invExcept_of_inv _ _ h

theorem foldl_addBundle_inv (owner key : String) (uses : List String)
    (j : KeyJar) (h : j.inv = true) :
    (uses.foldl (fun j use => j.addBundle owner ⟨[octKey key use]⟩) j).inv
      = true := by
  induction uses generalizing j with
  | nil => exact h
  | cons u us ih => exact ih _ (inv_addBundle_of_inv _ _ _ h)

theorem filterMap_toBundle_ne_nil (val : List PyVal)
    (hn : firstNonBundle val = none) (hne : val ≠ []) :
    (val.filterMap PyVal.toBundle).isEmpty = false := by
  cases val with
  | nil => exact absurd rfl hne
  | cons v rest =>
    cases v with
    | bundle kb => simp [PyVal.toBundle, List.filterMap_cons]
    | other s => simp [firstNonBundle] at hn

/-- Claim C3 amended: starting from a store satisfying the invariant,
every listed mutation preserves it — `add_url`, `add_kb`, `import_jwks`
and `remove_outdated` unconditionally (including their error paths, which
leave the store untouched), `add_symmetric` for a `None` or non-empty
usage list, and replace/`__setitem__` for a non-empty value list. The two
excluded edge cases (`add_symmetric` with usage `[]`, replace with `[]`)
genuinely break the invariant, see the counterexample. -/
theorem C3_amended_invariant_preservation (jar : KeyJar)
    (hinv : jar.inv = true) :
    (∀ owner url kc, ((jar.add_url owner url kc).2).inv = true) ∧
    (∀ owner key, (jar.add_symmetric owner key none).inv = true) ∧
    (∀ owner key uses, uses ≠ [] →
      (jar.add_symmetric owner key (some uses)).inv = true) ∧
    (∀ owner kb, (jar.add_kb owner kb).inv = true) ∧
    (∀ owner val, val ≠ [] → ((jar.setitem owner val).2).inv = true) ∧
    (∀ jwks issuer, ((jar.import_jwks jwks issuer).2).inv = true) ∧
    (∀ when, (jar.remove_outdated when).inv = true) := by
  refine ⟨?_, ?_, ?_, ?_, ?_, ?_, ?_⟩
  · intro owner url kc
    unfold KeyJar.add_url
    split
    · exact hinv
    · exact inv_addBundle_of_inv _ _ _ hinv
  · intro owner key
    unfold KeyJar.add_symmetric
    exact addBundle_inv _ _ _ (ensure_invExcept jar owner hinv)
  · intro owner key uses hne
    cases uses with
    | nil => exact absurd rfl hne
    | cons u us =>
      unfold KeyJar.add_symmetric
      dsimp only
      rw [List.foldl_cons]
      exact foldl_addBundle_inv _ _ _ _
        (addBundle_inv _ _ _ (ensure_invExcept jar owner hinv))
  · intro owner kb
    exact inv_addBundle_of_inv _ _ _ hinv
  · intro owner val hval
    unfold KeyJar.setitem
    cases hfb : firstNonBundle val with
    | some s => exact hinv
    | none =>
      exact inv_setOwner _ _ _ (filterMap_toBundle_ne_nil val hfb hval)
        (invExcept_of_inv _ _ hinv)
  · intro jwks issuer
    cases jwks with
    | none => exact hinv
    | some ks => exact inv_addBundle_of_inv _ _ _ hinv
  · intro when
    unfold KeyJar.remove_outdated KeyJar.inv
    rw [List.all_eq_true]
    intro p hp
    rw [List.mem_filterMap] at hp
    obtain ⟨a, _, hfa⟩ := hp
    have hfa2 : (if (List.filter (fun kb => !kb.keys.isEmpty)
        (List.map (fun kb => kb.remove_outdated jar.remove_after when) a.2)).isEmpty
          = true
        then (none : Option (String × List KeyBundle))
        else some (a.1, List.filter (fun kb => !kb.keys.isEmpty)
          (List.map (fun kb => kb.remove_outdated jar.remove_after when) a.2)))
        = some p := hfa
    split at hfa2
    · exact absurd hfa2 (by simp)
    · rename_i hne2
      obtain rfl := Option.some.inj hfa2
      rw [Bool.not_eq_true] at hne2
      simpa using hne2

def jarC3w : KeyJar := ⟨[("w", [⟨[⟨"RSA", "sig", "1", "", 0, "w1"⟩]⟩])], 3600⟩

def kbC3w : KeyBundle := ⟨[⟨"oct", "enc", "2", "", 0, "w2"⟩]⟩

/-- Claim C3 amended, witness: each preserved operation applied to a
concrete store satisfying the invariant. -/
theorem C3_amended_invariant_preservation_witness :
    ((jarC3w.add_url "o" "https://x" kbC3w).2).inv = true ∧
    (jarC3w.add_symmetric "o" "sec" none).inv = true ∧
    (jarC3w.add_symmetric "o" "sec" (some ["sig"])).inv = true ∧
    (jarC3w.add_kb "o" kbC3w).inv = true ∧
    ((jarC3w.setitem "o" [.bundle kbC3w]).2).inv = true ∧
    ((jarC3w.import_jwks (some [⟨"RSA", "sig", "3", "", 0, "w3"⟩]) "o").2).inv = true ∧
    (jarC3w.remove_outdated 9999).inv = true := by
  obtain ⟨h1, h2, h3, h4, h5, h6, h7⟩ :=
    C3_amended_invariant_preservation jarC3w (by decide)
  exact ⟨h1 "o" "https://x" kbC3w, h2 "o" "sec",
    h3 "o" "sec" ["sig"] (by decide), h4 "o" kbC3w,
    h5 "o" [.bundle kbC3w] (by decide),
    h6 (some [⟨"RSA", "sig", "3", "", 0, "w3"⟩]) "o", h7 9999⟩

/- ===================== Claim C5 amended ===================== -/

/-- Claim C5 amended: the slash normalization is a fallback, not an
equivalence — when the queried owner form is absent from the store, `get`
behaves exactly as if queried with the trailing slash toggled (provided
the toggled form is itself a usable non-empty owner string), and returns
`[]` when both forms are absent. When both forms are present each query
uses its own entry and the results can differ (see the counterexample). -/
theorem C5_amended_slash_fallback (jar : KeyJar)
    (use key_type owner kid : String) (alg : Option String)
    (h0 : owner ≠ "") (h1 : lookupOwner jar owner = none) :
    ((lookupOwner jar (toggleSlash owner)).isSome = true →
      toggleSlash owner ≠ "" →
      jar.get use key_type owner kid alg =
        jar.get use key_type (toggleSlash owner) kid alg) ∧
    (lookupOwner jar (toggleSlash owner) = none →
      (jar.get use key_type owner kid alg).1 = .ok []) := by
  have hres : resolveOwner jar owner = lookupOwner jar (toggleSlash owner) := by
    unfold resolveOwner toggleSlash
    rw [if_pos (bne_iff_ne.mpr h0), h1, apply_ite (lookupOwner jar)]
  constructor
  · intro hs hne
    obtain ⟨kbs, hkbs⟩ := Option.isSome_iff_exists.mp hs
    have hres2 : resolveOwner jar (toggleSlash owner) = some kbs := by
      unfold resolveOwner
      rw [if_pos (bne_iff_ne.mpr hne), hkbs]
    have b1 : (owner != "") = true := bne_iff_ne.mpr h0
    have b2 : (toggleSlash owner != "") = true := bne_iff_ne.mpr hne
    unfold KeyJar.get
    rw [hres, hkbs, hres2, b1, b2]
  · intro hn
    unfold KeyJar.get
    rw [hres, hn]

def jarC5w : KeyJar := ⟨[("b/", [⟨[⟨"RSA", "sig", "1", "", 0, "w5"⟩]⟩])], 3600⟩

/-- Claim C5 amended, witness: owner `"b"` is absent, `"b/"` is present;
querying `"b"` gives the same result as querying `"b/"`. -/
theorem C5_amended_slash_fallback_witness :
    jarC5w.get "sig" "" "b" "" none = jarC5w.get "sig" "" "b/" "" none :=
  (C5_amended_slash_fallback jarC5w "sig" "" "b" "" none (by decide)
    (by decide)).1 (by decide) (by decide)

/- ===================== Claim C10 amended ===================== -/

/-- Claim C10 amended: in a store with no own-identity (`""`) entry, a
`get` with an encryption use-class (`key_use` `"enc"` or `"dec"`), key
type `"oct"` and a non-empty owner that does resolve to an entry (the
owner or its slash-toggled form is present) raises `KeyError('')`: the
own-symmetric-key merge indexes `issuer_keys['']` without a guard. When
the owner resolves to no entry the lookup instead returns `[]` before
that code is reached (see the counterexample). -/
theorem C10_amended_unguarded_merge (jar : KeyJar)
    (key_use owner kid : String) (alg : Option String)
    (h0 : lookupOwner jar "" = none)
    (h1 : key_use = "enc" ∨ key_use = "dec")
    (h3 : owner ≠ "")
    (h4 : (resolveOwner jar owner).isSome = true) :
    (jar.get key_use "oct" owner kid alg).1 = .error (.keyError "") := by
  obtain ⟨kbs, hkbs⟩ := Option.isSome_iff_exists.mp h4
  have hb : (owner != "") = true := bne_iff_ne.mpr h3
  rcases h1 with rfl | rfl <;> simp [KeyJar.get, hkbs, h0, hb]

def jarC10w : KeyJar := ⟨[("a", [⟨[⟨"oct", "enc", "1", "", 0, "w10"⟩]⟩])], 3600⟩

/-- Claim C10 amended, witness: owner `"a"` is present, no `""` entry;
the encryption/oct lookup for `"a"` raises `KeyError('')`. -/
theorem C10_amended_unguarded_merge_witness :
    (jarC10w.get "enc" "oct" "a" "" none).1 = .error (.keyError "") :=
  C10_amended_unguarded_merge jarC10w "enc" "a" "" none (by decide)
    (Or.inl rfl) (by decide) (by decide)
